import Mathlib

/-!
Verification of the Genius-proxy worker.

The development shallowly embeds the two worker variants of the repository:
`src/worker.js` (the gated pipeline: shared-secret auth, rate limiting and
an edge cache) and `src/unnamed/part_000` (the ungated pipeline).  The DOM
flattener `flattenGenius` is common to both files and is embedded once.

Modelling conventions:
* JS `null`/`undefined` DOM nodes are the `DomNode.null` constructor; a raw
  string node is `DomNode.text`; a tagged node is `DomNode.elem`.  A missing
  `children` field is the empty list and a missing attribute is `none`
  (JS property access on the attribute object yields `undefined`).
* The side-effecting `result.push` of the source is made explicit: `walk`
  returns the pair of the list of records it pushes (in push order) and the
  list of spans it returns to its caller.
* HTTP requests, responses and environment bindings are finite records;
  headers are association lists looked up by exact name (the claims only use
  one consistent spelling of each header).  Headers a `Response` would gain
  implicitly from the JS runtime are not modelled: the header list holds
  exactly the headers the source passes to the `Response` constructor.
* The external collaborators (edge cache, rate limiter, upstream fetchers)
  are parameters of the handler; the calls the handler makes to them are
  recorded in an `Effect` trace, in call order.
-/

/-- A JS attribute value of the Genius DOM: attributes carry strings
(`src`, `alt`, `href`) or numbers (`width`, `height`). -/
inductive AttrValue where
  | str (s : String)
  | num (n : Int)
deriving DecidableEq

/-- The Genius rich-text DOM (`dom` argument of `flattenGenius`): either the
JS null/undefined value, a raw string, or a tagged element carrying an
attribute mapping and an ordered list of children. -/
inductive DomNode where
  | null : DomNode
  | text (s : String) : DomNode
  | elem (tag : String) (attributes : List (String × AttrValue))
      (children : List DomNode) : DomNode

/-- One output span of the flattener: `{ text, styles, link }`. -/
structure Span where
  text : String
  styles : List String
  link : Option AttrValue
deriving DecidableEq

/-- One record pushed to `result` by `flattenGenius`: either an image record
`{type:'image', url, alt, width, height}` or a block record
`{type:'paragraph'|'blockquote', spans}`. -/
inductive Item where
  | image (url alt width height : Option AttrValue)
  | block (kind : String) (spans : List Span)
deriving DecidableEq

/-- JS property access `attributes.name` on the attribute object: the first
binding for the key, `none` when absent (undefined). -/
def getAttr : List (String × AttrValue) → String → Option AttrValue
  | [], _ => none
  | (k, v) :: rest, name => if k == name then some v else getAttr rest name

mutual

/-- The inner `walk(node, currentStyles, currentLink, isInsideBlock)` of
`flattenGenius` (src/worker.js lines 15–65).  The first component of the
result is the list of records the call pushes onto `result`, in push order;
the second component is the span list the call returns to its caller. -/
def walk (node : DomNode) (currentStyles : List String) (currentLink : Option AttrValue)
    (isInsideBlock : Bool) : List Item × List Span :=
  match node with
  | .null => ([], [])
  | .text s => ([], [{ text := s, styles := currentStyles, link := currentLink }])
  | .elem tag attributes children =>
    if tag == "br" then
      ([], [{ text := "\n", styles := [], link := none }])
    else if tag == "img" then
      ([.image (getAttr attributes "src") (getAttr attributes "alt")
          (getAttr attributes "width") (getAttr attributes "height")], [])
    else if tag == "em" || tag == "i" || tag == "b" || tag == "strong" || tag == "a" then
      let newStyles := currentStyles
        ++ (if tag == "em" || tag == "i" then ["italic"] else [])
        ++ (if tag == "b" || tag == "strong" then ["bold"] else [])
      let newLink := if tag == "a" then getAttr attributes "href" else currentLink
      walkList children newStyles newLink true
    else
      let isBlockTag := tag == "p" || tag == "blockquote"
      let res := walkList children currentStyles currentLink
        (if isBlockTag then true else isInsideBlock)
      if isBlockTag && !isInsideBlock then
        if res.2.length > 0 then
          (res.1 ++ [.block (if tag == "p" then "paragraph" else "blockquote") res.2], [])
        else (res.1, [])
      else res

/-- The `children.flatMap(child => walk(child, …))` traversal: pushes and
span contributions of a child list, concatenated in document order. -/
def walkList (nodes : List DomNode) (currentStyles : List String)
    (currentLink : Option AttrValue) (isInsideBlock : Bool) : List Item × List Span :=
  match nodes with
  | [] => ([], [])
  | n :: rest =>
    let r1 := walk n currentStyles currentLink isInsideBlock
    let r2 := walkList rest currentStyles currentLink isInsideBlock
    (r1.1 ++ r2.1, r1.2 ++ r2.2)

end

/-- `flattenGenius(dom)` (src/worker.js lines 12–69): run the walk from the
root with empty styles, null link, not inside a block, and return the
accumulated `result`; the walk's returned spans are discarded. -/
def flattenGenius (dom : DomNode) : List Item :=
  (walk dom [] none false).1

/-- Discriminator for image records in the output sequence. -/
def isImage : Item → Bool
  | .image _ _ _ _ => true
  | .block _ _ => false

mutual

/-- Number of `br`-tagged nodes anywhere in a DOM tree (the input-side count
a per-node claim about line breaks quantifies over). -/
def countBrTags : DomNode → Nat
  | .null => 0
  | .text _ => 0
  | .elem tag _ cs => (if tag == "br" then 1 else 0) + countBrTagsList cs

def countBrTagsList : List DomNode → Nat
  | [] => 0
  | n :: ns => countBrTags n + countBrTagsList ns

end

mutual

/-- Number of `img`-tagged nodes anywhere in a DOM tree (the input-side
count claim C4 quantifies over). -/
def countImgTags : DomNode → Nat
  | .null => 0
  | .text _ => 0
  | .elem tag _ cs => (if tag == "img" then 1 else 0) + countImgTagsList cs

def countImgTagsList : List DomNode → Nat
  | [] => 0
  | n :: ns => countImgTags n + countImgTagsList ns

end

mutual

/-- Document-order list of the image records of the traversal-reachable
`img` nodes of a tree: the walk never visits the children of a `br` or
`img` node, and every other tag is traversed into. -/
def imageRecords : DomNode → List Item
  | .null => []
  | .text _ => []
  | .elem tag a cs =>
    if tag == "br" then []
    else if tag == "img" then
      [.image (getAttr a "src") (getAttr a "alt") (getAttr a "width") (getAttr a "height")]
    else imageRecordsList cs

def imageRecordsList : List DomNode → List Item
  | [] => []
  | n :: ns => imageRecords n ++ imageRecordsList ns

end

mutual

/-- True when the tree contains no `p`, `blockquote` or `img` tag anywhere —
the only three tags through which the walk ever pushes onto `result`. -/
def noEmitterTags : DomNode → Bool
  | .null => true
  | .text _ => true
  | .elem tag _ cs =>
    !(tag == "p" || tag == "blockquote" || tag == "img") && noEmitterTagsList cs

def noEmitterTagsList : List DomNode → Bool
  | [] => true
  | n :: ns => noEmitterTags n && noEmitterTagsList ns

end

mutual

/-- Fuel-bounded interpreter of the walk: identical to `walk` except that
every visit of a node consumes one unit of fuel and exhausted fuel aborts
with `none`.  Used to state termination of the recursion as a theorem. -/
def walkFuel : Nat → DomNode → List String → Option AttrValue → Bool →
    Option (List Item × List Span)
  | 0, _, _, _, _ => none
  | fuel + 1, node, currentStyles, currentLink, isInsideBlock =>
    match node with
    | .null => some ([], [])
    | .text s => some ([], [{ text := s, styles := currentStyles, link := currentLink }])
    | .elem tag attributes children =>
      if tag == "br" then
        some ([], [{ text := "\n", styles := [], link := none }])
      else if tag == "img" then
        some ([.image (getAttr attributes "src") (getAttr attributes "alt")
            (getAttr attributes "width") (getAttr attributes "height")], [])
      else if tag == "em" || tag == "i" || tag == "b" || tag == "strong" || tag == "a" then
        let newStyles := currentStyles
          ++ (if tag == "em" || tag == "i" then ["italic"] else [])
          ++ (if tag == "b" || tag == "strong" then ["bold"] else [])
        let newLink := if tag == "a" then getAttr attributes "href" else currentLink
        walkListFuel fuel children newStyles newLink true
      else
        let isBlockTag := tag == "p" || tag == "blockquote"
        match walkListFuel fuel children currentStyles currentLink
            (if isBlockTag then true else isInsideBlock) with
        | none => none
        | some res =>
          if isBlockTag && !isInsideBlock then
            if res.2.length > 0 then
              some (res.1 ++ [.block (if tag == "p" then "paragraph" else "blockquote") res.2], [])
            else some (res.1, [])
          else some res
termination_by fuel n _ _ _ => (fuel, sizeOf n)

/-- Fuel-bounded child-list traversal; aborts as soon as a child aborts. -/
def walkListFuel : Nat → List DomNode → List String → Option AttrValue → Bool →
    Option (List Item × List Span)
  | _, [], _, _, _ => some ([], [])
  | fuel, n :: rest, s, l, b =>
    match walkFuel fuel n s l b, walkListFuel fuel rest s l b with
    | some r1, some r2 => some (r1.1 ++ r2.1, r1.2 ++ r2.2)
    | _, _ => none
termination_by fuel ns _ _ _ => (fuel, sizeOf ns)

end

/-- Fuel-bounded `flattenGenius`. -/
def flattenGeniusFuel (fuel : Nat) (dom : DomNode) : Option (List Item) :=
  (walkFuel fuel dom [] none false).map Prod.fst

/-- Structural induction for the nested `DomNode` tree: the element step may
assume the motive for every member of the child list. -/
theorem DomNode.inductionOn {motive : DomNode → Prop}
    (hnull : motive .null) (htext : ∀ s, motive (.text s))
    (helem : ∀ t a cs, (∀ c ∈ cs, motive c) → motive (.elem t a cs)) :
    ∀ n, motive n := by
  have key : ∀ k n, sizeOf n ≤ k → motive n := by
    intro k
    induction k with
    | zero => intro n hn; cases n <;> simp at hn
    | succ k ih =>
      intro n hn
      cases n with
      | null => exact hnull
      | text s => exact htext s
      | elem t a cs =>
        refine helem t a cs (fun c hc => ih c ?_)
        have h1 : sizeOf c < sizeOf cs := List.sizeOf_lt_of_mem hc
        have h2 : sizeOf cs < sizeOf (DomNode.elem t a cs) := by simp
        omega
  exact fun n => key (sizeOf n) n le_rfl

/-- Sufficient fuel for every member lets the fuelled child-list traversal
agree with the total one. -/
theorem walkListFuel_eq :
    ∀ (ns : List DomNode) (fuel : Nat),
      (∀ c ∈ ns, ∀ f, sizeOf c ≤ f →
        ∀ (s : List String) (l : Option AttrValue) (b : Bool),
          walkFuel f c s l b = some (walk c s l b)) →
      sizeOf ns ≤ fuel →
      ∀ (s : List String) (l : Option AttrValue) (b : Bool),
        walkListFuel fuel ns s l b = some (walkList ns s l b) := by
  intro ns
  induction ns with
  | nil => intro fuel _ _ s l b; simp [walkListFuel, walkList]
  | cons n rest ih =>
    intro fuel h hf s l b
    have hf2 : 1 + sizeOf n + sizeOf rest ≤ fuel := by simpa using hf
    have e1 : walkFuel fuel n s l b = some (walk n s l b) :=
      h n (List.mem_cons_self n rest) fuel (by omega) s l b
    have e2 : walkListFuel fuel rest s l b = some (walkList rest s l b) :=
      ih fuel (fun c hc => h c (List.mem_cons_of_mem n hc)) (by omega) s l b
    simp only [walkListFuel, e1, e2]
    rfl

/-- With fuel at least the size of the tree, the fuelled walk agrees with
the total walk in every context: the recursion terminates, by the
structural measure that each recursive call is on a child of the node. -/
theorem walkFuel_eq :
    ∀ (n : DomNode) (fuel : Nat), sizeOf n ≤ fuel →
      ∀ (s : List String) (l : Option AttrValue) (b : Bool),
        walkFuel fuel n s l b = some (walk n s l b) := by
  intro n
  induction n using DomNode.inductionOn with
  | hnull =>
    intro fuel hf s l b
    cases fuel with
    | zero => simp at hf
    | succ m => simp [walkFuel, walk]
  | htext str =>
    intro fuel hf s l b
    cases fuel with
    | zero => simp at hf
    | succ m => simp [walkFuel, walk]
  | helem t a cs ih =>
    intro fuel hf s l b
    cases fuel with
    | zero =>
      simp at hf
    | succ m =>
      have hcs : sizeOf cs ≤ m := by
        have h1 : 1 + sizeOf t + sizeOf a + sizeOf cs ≤ m + 1 := by simpa using hf
        omega
      have hlist : ∀ (s2 : List String) (l2 : Option AttrValue) (b2 : Bool),
          walkListFuel m cs s2 l2 b2 = some (walkList cs s2 l2 b2) :=
        fun s2 l2 b2 => walkListFuel_eq cs m (fun c hc => ih c hc) hcs s2 l2 b2
      simp only [walkFuel, walk, hlist]
      split_ifs <;> rfl

/-- A block record with an empty span list never occurs; image records are
unconstrained. -/
def blockSpansNonempty : Item → Bool
  | .image _ _ _ _ => true
  | .block _ spans => !spans.isEmpty

/-- If every member of a child list only pushes records satisfying `P`
(in any context), so does the whole child-list traversal. -/
theorem walkList_all_items (P : Item → Bool) :
    ∀ (ns : List DomNode) (s : List String) (l : Option AttrValue) (b : Bool),
      (∀ c ∈ ns, ∀ s2 l2 b2, ((walk c s2 l2 b2).1.all P) = true) →
      ((walkList ns s l b).1.all P) = true := by
  intro ns
  induction ns with
  | nil => intro s l b _; rfl
  | cons n rest ih =>
    intro s l b h
    show ((walk n s l b).1 ++ (walkList rest s l b).1).all P = true
    rw [List.all_append, Bool.and_eq_true]
    exact ⟨h n (List.mem_cons_self n rest) s l b,
      ih s l b (fun c hc => h c (List.mem_cons_of_mem n hc))⟩

/-- A span list of positive length is not empty (Boolean form). -/
theorem not_isEmpty_of_length_pos : ∀ (l : List Span), l.length > 0 → (!l.isEmpty) = true := by
  intro l hl
  cases l with
  | nil => simp at hl
  | cons x xs => rfl

/-- Every record pushed by any call of the walk is a non-empty block or an
image, whatever the context. -/
theorem walk_all_blockNonempty :
    ∀ (n : DomNode) (s : List String) (l : Option AttrValue) (b : Bool),
      ((walk n s l b).1.all blockSpansNonempty) = true := by
  intro n
  induction n using DomNode.inductionOn with
  | hnull => intro s l b; rfl
  | htext str => intro s l b; rfl
  | helem t a cs ih =>
    intro s l b
    have hw : ∀ (s2 : List String) (l2 : Option AttrValue) (b2 : Bool),
        ((walkList cs s2 l2 b2).1.all blockSpansNonempty) = true :=
      fun s2 l2 b2 => walkList_all_items _ cs s2 l2 b2 (fun c hc => ih c hc)
    simp only [walk]
    repeat' split
    all_goals first
      | rfl
      | exact hw _ _ _
      | (rename _ > 0 => hlen;
         rw [List.all_append, Bool.and_eq_true];
         refine ⟨hw _ _ _, ?_⟩;
         show (blockSpansNonempty (.block _ _) && true) = true;
         rw [Bool.and_true];
         exact not_isEmpty_of_length_pos _ hlen)

/-- Claim C2: in the output of `flattenGenius`, for every DOM input, every
block record (paragraph or blockquote) holds a non-empty span list; a block
whose flattened children yield zero spans is never pushed. -/
theorem claim2_blocks_nonempty :
    ∀ dom, ((flattenGenius dom).all blockSpansNonempty) = true :=
  fun dom => walk_all_blockNonempty dom [] none false

/-- Membership form of `noEmitterTagsList`. -/
theorem noEmitterTagsList_mem :
    ∀ ns, noEmitterTagsList ns = true → ∀ c ∈ ns, noEmitterTags c = true := by
  intro ns
  induction ns with
  | nil => intro _ c hc; simp at hc
  | cons n rest ih =>
    intro h c hc
    have h2 : (noEmitterTags n && noEmitterTagsList rest) = true := h
    rw [Bool.and_eq_true] at h2
    rw [List.mem_cons] at hc
    rcases hc with rfl | hc
    · exact h2.1
    · exact ih h2.2 c hc

/-- If every member of a child list pushes nothing (in any context), the
child-list traversal pushes nothing. -/
theorem walkList_items_nil :
    ∀ (ns : List DomNode) (s : List String) (l : Option AttrValue) (b : Bool),
      (∀ c ∈ ns, ∀ s2 l2 b2, (walk c s2 l2 b2).1 = []) →
      (walkList ns s l b).1 = [] := by
  intro ns
  induction ns with
  | nil => intro s l b _; rfl
  | cons n rest ih =>
    intro s l b h
    show (walk n s l b).1 ++ (walkList rest s l b).1 = []
    have hn : (walk n s l b).1 = [] := h n (List.mem_cons_self n rest) s l b
    have hr : (walkList rest s l b).1 = [] :=
      ih s l b (fun c hc => h c (List.mem_cons_of_mem n hc))
    rw [hn, hr]
    rfl

/-- A walk over a tree containing no `p`, `blockquote` or `img` tag pushes
nothing, whatever the context. -/
theorem walk_no_emitters :
    ∀ n, noEmitterTags n = true →
      ∀ (s : List String) (l : Option AttrValue) (b : Bool), (walk n s l b).1 = [] := by
  intro n
  induction n using DomNode.inductionOn with
  | hnull => intro _ s l b; rfl
  | htext str => intro _ s l b; rfl
  | helem t a cs ih =>
    intro hno s l b
    have h2 : (!(t == "p" || t == "blockquote" || t == "img") && noEmitterTagsList cs) = true := hno
    rw [Bool.and_eq_true, Bool.not_eq_eq_eq_not] at h2
    obtain ⟨htags, hcs⟩ := h2
    have hmem : ∀ c ∈ cs, ∀ s2 l2 b2, (walk c s2 l2 b2).1 = [] :=
      fun c hc s2 l2 b2 => ih c hc (noEmitterTagsList_mem cs hcs c hc) s2 l2 b2
    have hp : (t == "p") = false := by
      cases hp : t == "p" <;> simp [hp] at htags ⊢
    have hbq : (t == "blockquote") = false := by
      cases hb : t == "blockquote" <;> simp [hb] at htags ⊢
    have himg : (t == "img") = false := by
      cases hi : t == "img" <;> simp [hi] at htags ⊢
    simp only [walk]
    split
    · rfl
    · split
      · rename_i him
        rw [himg] at him
        exact absurd him (by simp)
      · split
        · exact walkList_items_nil cs _ _ _ hmem
        · rw [hp, hbq]
          show (walkList cs s l (if (false || false) then true else b)).1 = []
          exact walkList_items_nil cs _ _ _ hmem

/-- Claim C7: a DOM input containing no block tag (`p`/`blockquote`) and no
image tag produces the empty output sequence — spans that never reach a
block boundary are silently dropped. -/
theorem claim7_orphans_dropped :
    ∀ dom, noEmitterTags dom = true → flattenGenius dom = [] :=
  fun dom h => walk_no_emitters dom h [] none false

/-- Claim C7, witness: bare text wrapped only in inline and unrecognized
tags at the document root flattens to nothing. -/
theorem claim7_witness :
    noEmitterTags (.elem "div" [] [.text "x", .elem "em" [] [.text "y"]]) = true
    ∧ flattenGenius (.elem "div" [] [.text "x", .elem "em" [] [.text "y"]]) = [] :=
  ⟨rfl, claim7_orphans_dropped (.elem "div" [] [.text "x", .elem "em" [] [.text "y"]]) rfl⟩

/-- A singleton block record contributes nothing to the image filtering. -/
theorem filter_isImage_block :
    ∀ (k : String) (sp : List Span), [Item.block k sp].filter isImage = [] :=
  fun _ _ => rfl

/-- Image records pushed by a child-list traversal, assuming the member
property, are exactly the reachable image records in document order. -/
theorem walkList_filter_images :
    ∀ (ns : List DomNode) (s : List String) (l : Option AttrValue) (b : Bool),
      (∀ c ∈ ns, ∀ s2 l2 b2, ((walk c s2 l2 b2).1.filter isImage) = imageRecords c) →
      ((walkList ns s l b).1.filter isImage) = imageRecordsList ns := by
  intro ns
  induction ns with
  | nil => intro s l b _; rfl
  | cons n rest ih =>
    intro s l b h
    show ((walk n s l b).1 ++ (walkList rest s l b).1).filter isImage =
      imageRecords n ++ imageRecordsList rest
    rw [List.filter_append, h n (List.mem_cons_self n rest) s l b,
      ih s l b (fun c hc => h c (List.mem_cons_of_mem n hc))]

/-- The image records pushed by any call of the walk, in push order, are
exactly the document-order image records of the traversal-reachable `img`
nodes of the subtree, whatever the context. -/
theorem walk_filter_images :
    ∀ (n : DomNode) (s : List String) (l : Option AttrValue) (b : Bool),
      ((walk n s l b).1.filter isImage) = imageRecords n := by
  intro n
  induction n using DomNode.inductionOn with
  | hnull => intro s l b; rfl
  | htext str => intro s l b; rfl
  | helem t a cs ih =>
    intro s l b
    have hw : ∀ (s2 : List String) (l2 : Option AttrValue) (b2 : Bool),
        ((walkList cs s2 l2 b2).1.filter isImage) = imageRecordsList cs :=
      fun s2 l2 b2 => walkList_filter_images cs s2 l2 b2 (fun c hc => ih c hc)
    simp only [walk, imageRecords]
    split_ifs <;>
      first
        | rfl
        | exact hw _ _ _
        | (rw [List.filter_append, filter_isImage_block, List.append_nil]; exact hw _ _ _)

/-- Claim C4, counterexample: the input `{tag:"p", children:[{tag:"img",
attributes:{src:"x.png"}, children:[{tag:"img", attributes:{src:"y.png"}}]}]}`
contains two image tags, but the output holds a single image record: the
image handler returns without visiting its children, so the nested image
tag contributes nothing.  Hence not every image tag at any nesting depth
contributes an image record. -/
theorem claim4_counterexample :
    countImgTags (.elem "p" [] [.elem "img" [("src", .str "x.png")]
        [.elem "img" [("src", .str "y.png")] []]]) = 2
    ∧ flattenGenius (.elem "p" [] [.elem "img" [("src", .str "x.png")]
        [.elem "img" [("src", .str "y.png")] []]]) =
      [.image (some (.str "x.png")) none none none] := ⟨rfl, rfl⟩

/-- Claim C4 as amended: every traversal-reachable image tag (one not nested
inside an `img` or `br` subtree, whose children the walk never visits)
pushes exactly one image record directly into the top-level output at its
document-order position and contributes no span to its caller — so no image
record can end up inside a block's span list, and the image records of the
output sequence, in order, are exactly the document-order reachable images;
in particular an image inside a paragraph is pushed before the paragraph's
own block record, as in the spec's scenario. -/
theorem claim4_images_document_order :
    (∀ (a : List (String × AttrValue)) (cs : List DomNode) (s : List String)
        (l : Option AttrValue) (b : Bool),
        walk (.elem "img" a cs) s l b =
          ([.image (getAttr a "src") (getAttr a "alt")
              (getAttr a "width") (getAttr a "height")], []))
    ∧ (∀ (n : DomNode) (s : List String) (l : Option AttrValue) (b : Bool),
        ((walk n s l b).1.filter isImage) = imageRecords n)
    ∧ flattenGenius (.elem "p" []
        [.elem "img" [("src", .str "x.png"), ("alt", .str "a"),
          ("width", .num 1), ("height", .num 2)] [],
         .text "after"]) =
      [.image (some (.str "x.png")) (some (.str "a")) (some (.num 1)) (some (.num 2)),
       .block "paragraph" [⟨"after", [], none⟩]] :=
  ⟨fun _ _ _ _ _ => rfl, walk_filter_images, rfl⟩

/-- Claim C1: flattening `{tag:"p", children:["Hello ", {tag:"b",
children:["world"]}, "!"]}` yields exactly the one paragraph block with the
three spans `"Hello "` (plain), `"world"` (bold), `"!"` (plain). -/
theorem claim1_roundtrip :
    flattenGenius (.elem "p" [] [.text "Hello ", .elem "b" [] [.text "world"], .text "!"]) =
      [.block "paragraph"
        [⟨"Hello ", [], none⟩, ⟨"world", ["bold"], none⟩, ⟨"!", [], none⟩]] := rfl

/-- Claim C10: the walk of `flattenGenius` is total — on every finite DOM
tree it terminates, because each recursive call descends to a child of the
current node.  Stated operationally: the step-counting interpreter
`flattenGeniusFuel` never runs out of fuel once the fuel covers the
structural size of the tree, and then computes exactly `flattenGenius`. -/
theorem claim10_walk_terminates :
    ∀ (dom : DomNode) (fuel : Nat), sizeOf dom ≤ fuel →
      flattenGeniusFuel fuel dom = some (flattenGenius dom) := by
  intro dom fuel hf
  unfold flattenGeniusFuel flattenGenius
  rw [walkFuel_eq dom fuel hf [] none false]
  rfl

/-- Claim C10, witness: the round-trip paragraph terminates within fuel equal
to its own structural size. -/
theorem claim10_witness :
    flattenGeniusFuel
        (sizeOf (DomNode.elem "p" [] [.text "Hello ", .elem "b" [] [.text "world"], .text "!"]))
        (.elem "p" [] [.text "Hello ", .elem "b" [] [.text "world"], .text "!"]) =
      some (flattenGenius
        (.elem "p" [] [.text "Hello ", .elem "b" [] [.text "world"], .text "!"])) :=
  claim10_walk_terminates
    (.elem "p" [] [.text "Hello ", .elem "b" [] [.text "world"], .text "!"]) _ le_rfl

/-- Claim C3: a block tag walked with the inside-a-block flag set emits no
block record of its own and hands all of its flattened spans (and its
descendants' image pushes) to its caller unchanged, for every attribute
list, child list, style set and link context; consequently — as the
spec's scenario shows — a blockquote nested in a paragraph contributes its
text to the paragraph's spans and no separate blockquote block appears. -/
theorem claim3_nested_block_absorbed :
    (∀ (a : List (String × AttrValue)) (cs : List DomNode) (s : List String)
        (l : Option AttrValue), walk (.elem "p" a cs) s l true = walkList cs s l true)
    ∧ (∀ (a : List (String × AttrValue)) (cs : List DomNode) (s : List String)
        (l : Option AttrValue),
        walk (.elem "blockquote" a cs) s l true = walkList cs s l true)
    ∧ flattenGenius (.elem "p" [] [.elem "blockquote" [] [.text "quoted"]]) =
        [.block "paragraph" [⟨"quoted", [], none⟩]] :=
  ⟨fun _ _ _ _ => rfl, fun _ _ _ _ => rfl, rfl⟩

/-- Claim C5, counterexample: the DOM `{tag:"p", children:[{tag:"img",
children:[{tag:"br"}]}]}` contains one line-break node, yet the walk of the
whole tree produces no span at all — neither pushed inside a block record
nor returned upward — because the image handler returns without ever
visiting its children.  So it is not true that flatten produces a newline
span for every br node of every input. -/
theorem claim5_counterexample :
    countBrTags (.elem "p" [] [.elem "img" [] [.elem "br" [] []]]) = 1
    ∧ walk (.elem "p" [] [.elem "img" [] [.elem "br" [] []]]) [] none false =
        ([.image none none none none], []) :=
  ⟨rfl, rfl⟩

/-- Claim C5 as amended: whenever the walk does reach a line-break node, it
yields exactly the single span `{text:"\n", styles:[], link:null}` and
pushes nothing, regardless of the inherited style set, link context and
nesting flag (br nodes inside `img` or `br` subtrees are never reached,
since those handlers return without visiting children). -/
theorem claim5_br_span :
    ∀ (a : List (String × AttrValue)) (cs : List DomNode) (s : List String)
      (l : Option AttrValue) (b : Bool),
      walk (.elem "br" a cs) s l b = ([], [⟨"\n", [], none⟩]) :=
  fun _ _ _ _ _ => rfl

/-- Claim C6, counterexample: in the input `{tag:"p", children:[{tag:"b",
children:[{tag:"i", children:["x"]}]}]}` the output span carries both
styles, but as `["bold","italic"]` — italic occurs after bold, because the
bold tag is the outer one.  The claim that italic always precedes bold in
a span containing both is therefore false. -/
theorem claim6_counterexample :
    flattenGenius (.elem "p" [] [.elem "b" [] [.elem "i" [] [.text "x"]]]) =
      [.block "paragraph" [⟨"x", ["bold", "italic"], none⟩]] := rfl

/-- Claim C6 as amended: each inline styling tag appends its style to the
end of the inherited style list (and the anchor tag appends nothing,
replacing only the link), so a span's styles appear in outermost-first
application order: italic precedes bold exactly when the italic-marker tag
encloses the bold-marker tag, and follows it in the opposite nesting. -/
theorem claim6_style_order :
    (∀ (a : List (String × AttrValue)) (cs : List DomNode) (s : List String)
        (l : Option AttrValue) (b : Bool),
        walk (.elem "em" a cs) s l b = walkList cs (s ++ ["italic"]) l true)
    ∧ (∀ (a : List (String × AttrValue)) (cs : List DomNode) (s : List String)
        (l : Option AttrValue) (b : Bool),
        walk (.elem "i" a cs) s l b = walkList cs (s ++ ["italic"]) l true)
    ∧ (∀ (a : List (String × AttrValue)) (cs : List DomNode) (s : List String)
        (l : Option AttrValue) (b : Bool),
        walk (.elem "b" a cs) s l b = walkList cs (s ++ ["bold"]) l true)
    ∧ (∀ (a : List (String × AttrValue)) (cs : List DomNode) (s : List String)
        (l : Option AttrValue) (b : Bool),
        walk (.elem "strong" a cs) s l b = walkList cs (s ++ ["bold"]) l true)
    ∧ (∀ (a : List (String × AttrValue)) (cs : List DomNode) (s : List String)
        (l : Option AttrValue) (b : Bool),
        walk (.elem "a" a cs) s l b = walkList cs s (getAttr a "href") true)
    ∧ flattenGenius (.elem "p" [] [.elem "em" [] [.elem "b" [] [.text "x"]]]) =
        [.block "paragraph" [⟨"x", ["italic", "bold"], none⟩]] := by
  refine ⟨fun a cs s l b => ?_, fun a cs s l b => ?_, fun a cs s l b => ?_,
    fun a cs s l b => ?_, fun a cs s l b => ?_, rfl⟩
  · show walkList cs (s ++ ["italic"] ++ []) l true = walkList cs (s ++ ["italic"]) l true
    rw [List.append_nil]
  · show walkList cs (s ++ ["italic"] ++ []) l true = walkList cs (s ++ ["italic"]) l true
    rw [List.append_nil]
  · show walkList cs (s ++ [] ++ ["bold"]) l true = walkList cs (s ++ ["bold"]) l true
    rw [List.append_assoc]
    rfl
  · show walkList cs (s ++ [] ++ ["bold"]) l true = walkList cs (s ++ ["bold"]) l true
    rw [List.append_assoc]
    rfl
  · show walkList cs (s ++ [] ++ []) (getAttr a "href") true =
      walkList cs s (getAttr a "href") true
    rw [List.append_nil, List.append_nil]

/-! The request pipeline.  `handleGated` embeds the `fetch` handler of
`src/worker.js` and `handleUngated` the one of `src/unnamed/part_000`. -/

/-- An inbound HTTP request: method, URL pathname and request headers. -/
structure Request where
  method : String
  path : String
  headers : List (String × String)

/-- A worker environment: the shared secret, the rate-limiter binding
(modelled as the success verdict per client key) and the upstream token;
`none` models an unconfigured (undefined) binding. -/
structure Env where
  PROXY_SECRET : Option String
  RATE_LIMITER : Option (String → Bool)
  GENIUS_ACCESS_TOKEN : Option String

/-- An HTTP response.  The header list holds exactly the headers the source
passes to the `Response` constructor (runtime-implied defaults are not
modelled). -/
structure Response where
  status : Nat
  body : String
  headers : List (String × String)
deriving DecidableEq

/-- First-match association lookup, as `Headers.get` (claims use one
consistent spelling per header name, so case folding is not modelled). -/
def lookupHeader : List (String × String) → String → Option String
  | [], _ => none
  | (k, v) :: rest, name => if k == name then some v else lookupHeader rest name

/-- `request.headers.get(name)`: the header value or null. -/
def reqHeader (req : Request) (name : String) : Option String :=
  lookupHeader req.headers name

/-- Header lookup on a response. -/
def getHeader (resp : Response) (name : String) : Option String :=
  lookupHeader resp.headers name

/-- `headers.set(name, value)`: drop existing bindings of the name, add the
new one. -/
def setHeader (resp : Response) (name value : String) : Response :=
  { resp with headers := resp.headers.filter (fun p => !(p.1 == name)) ++ [(name, value)] }

/-- One call to an external collaborator, in the order the handler makes
them: a rate-limiter check, a cache lookup, an upstream song or artist
fetch, or the background cache write. -/
inductive Effect where
  | rateLimit (key : String)
  | cacheMatch
  | upstreamSong (id : String)
  | upstreamArtist (id : String)
  | cacheWrite
deriving DecidableEq

/-- Consume a literal character sequence from the front, or fail. -/
def dropLitChars : List Char → List Char → Option (List Char)
  | [], cs => some cs
  | _ :: _, [] => none
  | p :: ps, c :: cs => if c == p then dropLitChars ps cs else none

/-- All characters are ASCII digits (the `\d` class of the JS regexes). -/
def allDigits : List Char → Bool
  | [] => true
  | c :: cs => c.isDigit && allDigits cs

/-- The anchored route regexes `^/song/(\d+)$` and `^/artist/(\d+)$`:
a literal route name followed by one or more digits up to the end of the
path, capturing the digits. -/
def matchIdRoute (lit : List Char) (path : String) : Option String :=
  match dropLitChars lit path.toList with
  | some rest => if rest.length > 0 && allDigits rest then some (String.mk rest) else none
  | none => none

/-- `path.match(/^\/song\/(\d+)$/)`, returning the captured id. -/
def matchSong (path : String) : Option String := matchIdRoute "/song/".toList path

/-- `path.match(/^\/artist\/(\d+)$/)`, returning the captured id. -/
def matchArtist (path : String) : Option String := matchIdRoute "/artist/".toList path

/-- `JSON.stringify({error: message})` for messages without characters that
need JSON escaping (all messages the claims touch are of this form). -/
def jsonError (message : String) : String :=
  "\x7b\"error\":\"" ++ message ++ "\"\x7d"

/-- The `Content-Type: application/json` header pair. -/
def contentTypeJson : String × String := ("Content-Type", "application/json")

/-- The `Access-Control-Allow-Origin: *` header pair. -/
def corsAllowOrigin : String × String := ("Access-Control-Allow-Origin", "*")

/-- Root-path payload of the gated worker, serialized. -/
def rootBodyGated : String :=
  "\x7b\"message\":\"Genius API Proxy\",\"endpoints\":\x7b\"song\":\"/song/\x7bid\x7d\",\"artist\":\"/artist/\x7bid\x7d\"\x7d\x7d"

/-- Root-path payload of the ungated worker, serialized. -/
def rootBodyUngated : String :=
  "\x7b\"message\":\"Genius API Proxy\",\"endpoints\":\x7b\"song\":\"/song/\x7bsongId\x7d\",\"artist\":\"/artist/\x7bartistId\x7d\"\x7d\x7d"

/-- The gated worker's security gate, `clientSecret !== env.PROXY_SECRET`
negated: the client header is null (absent) or a string, the configured
secret is undefined (unconfigured) or a string, and null, undefined and
strings are pairwise distinct under strict equality — so the gate passes
exactly when both sides are the same string. -/
def authOk (req : Request) (env : Env) : Bool :=
  match reqHeader req "X-Proxy-Secret", env.PROXY_SECRET with
  | some c, some s => c == s
  | _, _ => false

/-- `request.headers.get("CF-Connecting-IP") || "anonymous"`; the JS `||`
also replaces an empty-string header value. -/
def clientKey (req : Request) : String :=
  match reqHeader req "CF-Connecting-IP" with
  | some ip => if ip == "" then "anonymous" else ip
  | none => "anonymous"

/-- A 200 response of the gated worker (steps 5–6 of its handler). -/
def okResponseGated (data : String) : Response :=
  ⟨200, data, [contentTypeJson, corsAllowOrigin,
    ("Cache-Control", "public, s-maxage=86400, max-age=3600"),
    ("X-Proxy-Cache", "MISS")]⟩

/-- CORS preflight headers of the gated worker. -/
def preflightHeadersGated : List (String × String) :=
  [corsAllowOrigin, ("Access-Control-Allow-Methods", "GET, OPTIONS"),
   ("Access-Control-Allow-Headers", "Content-Type, X-Proxy-Secret"),
   ("Access-Control-Max-Age", "86400")]

/-- JS truthiness of the upstream token binding, as tested by
`if (!geniusToken)`: the binding is a string or undefined, and it is truthy
exactly when it is a defined, non-empty string. -/
def tokenTruthy : Option String → Bool
  | none => false
  | some s => !(s == "")

/-- Steps 3–6 of the gated handler (after the auth and rate-limit gates):
cache lookup, OPTIONS/method gates, the falsy-token check (an undefined or
empty-string `GENIUS_ACCESS_TOKEN` yields the header-less config 500),
routing, upstream fetch and response construction, with the scheduled
background cache write of a successful response recorded as a `cacheWrite`
effect. -/
def handleAfterGates (req : Request) (env : Env) (cache : Request → Option Response)
    (fetchSongData fetchArtistData : String → String → Except String String)
    (effects : List Effect) : Response × List Effect :=
  match cache req with
  | some response => (setHeader response "X-Proxy-Cache" "HIT", effects ++ [.cacheMatch])
  | none =>
    if req.method == "OPTIONS" then
      (⟨200, "", preflightHeadersGated⟩, effects ++ [.cacheMatch])
    else if !(req.method == "GET") then
      (⟨405, "Method not allowed", [corsAllowOrigin]⟩, effects ++ [.cacheMatch])
    else
      match env.GENIUS_ACCESS_TOKEN with
      | none => (⟨500, "GENIUS_ACCESS_TOKEN not configured", []⟩, effects ++ [.cacheMatch])
      | some token =>
        if token == "" then
          (⟨500, "GENIUS_ACCESS_TOKEN not configured", []⟩, effects ++ [.cacheMatch])
        else
          match matchSong req.path with
          | some id =>
            match fetchSongData id token with
            | .ok data =>
              (okResponseGated data, effects ++ [.cacheMatch, .upstreamSong id, .cacheWrite])
            | .error msg =>
              (⟨500, jsonError msg, [contentTypeJson, corsAllowOrigin]⟩,
                effects ++ [.cacheMatch, .upstreamSong id])
          | none =>
            match matchArtist req.path with
            | some id =>
              match fetchArtistData id token with
              | .ok data =>
                (okResponseGated data, effects ++ [.cacheMatch, .upstreamArtist id, .cacheWrite])
              | .error msg =>
                (⟨500, jsonError msg, [contentTypeJson, corsAllowOrigin]⟩,
                  effects ++ [.cacheMatch, .upstreamArtist id])
            | none =>
              if req.path == "/" || req.path == "" then
                (okResponseGated rootBodyGated, effects ++ [.cacheMatch, .cacheWrite])
              else
                (⟨404, jsonError "Not found", []⟩, effects ++ [.cacheMatch])

/-- The gated worker's `fetch` handler (src/worker.js): the security gate,
then the rate-limit gate, then `handleAfterGates`.  Alongside the response
it returns the trace of collaborator calls the run makes, in order. -/
def handleGated (req : Request) (env : Env) (cache : Request → Option Response)
    (fetchSongData fetchArtistData : String → String → Except String String) :
    Response × List Effect :=
  if !(authOk req env) then
    (⟨401, jsonError "Unauthorized", [contentTypeJson, corsAllowOrigin]⟩, [])
  else
    match env.RATE_LIMITER with
    | some limiter =>
      if !(limiter (clientKey req)) then
        (⟨429, jsonError "Too Many Requests", [contentTypeJson, corsAllowOrigin]⟩,
          [.rateLimit (clientKey req)])
      else handleAfterGates req env cache fetchSongData fetchArtistData
        [.rateLimit (clientKey req)]
    | none => handleAfterGates req env cache fetchSongData fetchArtistData []

/-- The ungated worker's `fetch` handler (src/unnamed/part_000): no secret,
no limiter, no cache; every response carries the CORS header. -/
def handleUngated (req : Request) (env : Env)
    (fetchSongData fetchArtistData : String → String → Except String String) : Response :=
  if req.method == "OPTIONS" then
    ⟨200, "", [corsAllowOrigin, ("Access-Control-Allow-Methods", "GET, OPTIONS"),
      ("Access-Control-Allow-Headers", "Content-Type"), ("Access-Control-Max-Age", "86400")]⟩
  else if !(req.method == "GET") then
    ⟨405, "Method not allowed", [corsAllowOrigin]⟩
  else
    match env.GENIUS_ACCESS_TOKEN with
    | none => ⟨500, "GENIUS_ACCESS_TOKEN not configured", [corsAllowOrigin]⟩
    | some token =>
      if token == "" then
        ⟨500, "GENIUS_ACCESS_TOKEN not configured", [corsAllowOrigin]⟩
      else
        match matchSong req.path with
        | some id =>
          match fetchSongData id token with
          | .ok data =>
            ⟨200, data, [contentTypeJson, corsAllowOrigin, ("Cache-Control", "public, max-age=3600")]⟩
          | .error msg =>
            ⟨500, jsonError (if msg == "" then "Failed to fetch song" else msg),
              [contentTypeJson, corsAllowOrigin]⟩
        | none =>
          match matchArtist req.path with
          | some id =>
            match fetchArtistData id token with
            | .ok data =>
              ⟨200, data, [contentTypeJson, corsAllowOrigin, ("Cache-Control", "public, max-age=3600")]⟩
            | .error msg =>
              ⟨500, jsonError (if msg == "" then "Failed to fetch artist" else msg),
                [contentTypeJson, corsAllowOrigin]⟩
          | none =>
            if req.path == "/" || req.path == "" then
              ⟨200, rootBodyUngated, [contentTypeJson, corsAllowOrigin]⟩
            else
              ⟨404, jsonError "Not found. Use /song/\x7bid\x7d or /artist/\x7bid\x7d",
                [contentTypeJson, corsAllowOrigin]⟩

/-- Setting a header makes it present with the set value. -/
theorem lookupHeader_filter_set :
    ∀ (hs : List (String × String)) (name value : String),
      lookupHeader (hs.filter (fun p => !(p.1 == name)) ++ [(name, value)]) name = some value := by
  intro hs name value
  induction hs with
  | nil => simp [lookupHeader]
  | cons p rest ih =>
    cases hp : p.1 == name with
    | true => simp [List.filter_cons, hp, ih]
    | false => simp [List.filter_cons, hp, lookupHeader, ih]

/-- `setHeader` guarantees the header on the result. -/
theorem getHeader_setHeader :
    ∀ (resp : Response) (name value : String),
      getHeader (setHeader resp name value) name = some value :=
  fun resp name value => lookupHeader_filter_set resp.headers name value

/-- CORS property of the pipeline tail: apart from cache hits (recognizable
by their `X-Proxy-Cache: HIT` marker), the 401/405/429 responses and the
500 responses of a truthy-token run (the token configured to a non-empty
string, so the falsy-token 500 is ruled out) carry the CORS allow-origin
header. -/
theorem afterGates_cors :
    ∀ (req : Request) (env : Env) (cache : Request → Option Response)
      (fS fA : String → String → Except String String) (effs : List Effect),
      getHeader (handleAfterGates req env cache fS fA effs).1 "X-Proxy-Cache" ≠ some "HIT" →
      (((handleAfterGates req env cache fS fA effs).1.status = 401 ∨
          (handleAfterGates req env cache fS fA effs).1.status = 405 ∨
          (handleAfterGates req env cache fS fA effs).1.status = 429) →
        getHeader (handleAfterGates req env cache fS fA effs).1
          "Access-Control-Allow-Origin" = some "*")
      ∧ ((handleAfterGates req env cache fS fA effs).1.status = 500 →
          tokenTruthy env.GENIUS_ACCESS_TOKEN = true →
          getHeader (handleAfterGates req env cache fS fA effs).1
            "Access-Control-Allow-Origin" = some "*") := by
  intro req env cache fS fA effs
  unfold handleAfterGates
  split
  · rename_i resp heq
    intro hHit
    exact absurd (getHeader_setHeader resp "X-Proxy-Cache" "HIT") hHit
  · intro hHit
    repeat' split
    all_goals refine ⟨fun hs => ?_, fun h5 htok => ?_⟩
    all_goals first
      | rfl
      | (rcases hs with h | h | h <;> simp [okResponseGated] at h)
      | (simp [okResponseGated] at h5; done)
      | (rename ((_ == "") = true) => hemp; rename (env.GENIUS_ACCESS_TOKEN = _) => htk;
         rw [htk] at htok; simp [tokenTruthy, hemp] at htok)
      | (rename (env.GENIUS_ACCESS_TOKEN = _) => htk;
         rw [htk] at htok; simp [tokenTruthy] at htok)

/-- CORS property lifted over the two front gates of the gated handler. -/
theorem gated_error_cors :
    ∀ (req : Request) (env : Env) (cache : Request → Option Response)
      (fS fA : String → String → Except String String),
      getHeader (handleGated req env cache fS fA).1 "X-Proxy-Cache" ≠ some "HIT" →
      (((handleGated req env cache fS fA).1.status = 401 ∨
          (handleGated req env cache fS fA).1.status = 405 ∨
          (handleGated req env cache fS fA).1.status = 429) →
        getHeader (handleGated req env cache fS fA).1
          "Access-Control-Allow-Origin" = some "*")
      ∧ ((handleGated req env cache fS fA).1.status = 500 →
          tokenTruthy env.GENIUS_ACCESS_TOKEN = true →
          getHeader (handleGated req env cache fS fA).1
            "Access-Control-Allow-Origin" = some "*") := by
  intro req env cache fS fA
  unfold handleGated
  split
  · exact fun _ => ⟨fun _ => rfl, fun h5 _ => by simp at h5⟩
  · split
    · split
      · exact fun _ => ⟨fun _ => rfl, fun h5 _ => by simp at h5⟩
      · exact afterGates_cors req env cache fS fA _
    · exact afterGates_cors req env cache fS fA _

/-- Every response of the ungated worker carries the CORS allow-origin
header (in particular all of its error responses do). -/
theorem ungated_cors :
    ∀ (req : Request) (env : Env) (fS fA : String → String → Except String String),
      getHeader (handleUngated req env fS fA) "Access-Control-Allow-Origin" = some "*" := by
  intro req env fS fA
  unfold handleUngated
  repeat' split
  all_goals rfl

/-- Claim C9, counterexample: in the gated worker a request with the correct
secret for an unmatched path yields the 404 error response, and that
response carries no `Access-Control-Allow-Origin` header (the source builds
it with no headers at all).  So not every error response of the pipeline
carries the CORS header. -/
theorem claim9_counterexample :
    (handleGated ⟨"GET", "/unknown", [("X-Proxy-Secret", "hunter2")]⟩
        ⟨some "hunter2", some (fun _ => true), some "tok"⟩
        (fun _ => none) (fun _ _ => .ok "data") (fun _ _ => .ok "data")).1.status = 404
    ∧ getHeader (handleGated ⟨"GET", "/unknown", [("X-Proxy-Secret", "hunter2")]⟩
        ⟨some "hunter2", some (fun _ => true), some "tok"⟩
        (fun _ => none) (fun _ _ => .ok "data") (fun _ _ => .ok "data")).1
        "Access-Control-Allow-Origin" = none :=
  ⟨rfl, rfl⟩

/-- Claim C9 as amended: every response of the ungated pipeline carries
`Access-Control-Allow-Origin: *`; in the gated pipeline the non-cache-hit
401, 405 and 429 responses and — when the upstream token is JS-truthy,
i.e. configured to a non-empty string — the 500 responses carry it, but
the gated 404 and the gated missing-configuration 500 (token undefined or
the falsy empty string) are built with no headers at all. -/
theorem claim9_error_cors :
    (∀ (req : Request) (env : Env) (cache : Request → Option Response)
        (fS fA : String → String → Except String String),
        getHeader (handleGated req env cache fS fA).1 "X-Proxy-Cache" ≠ some "HIT" →
        (((handleGated req env cache fS fA).1.status = 401 ∨
            (handleGated req env cache fS fA).1.status = 405 ∨
            (handleGated req env cache fS fA).1.status = 429) →
          getHeader (handleGated req env cache fS fA).1
            "Access-Control-Allow-Origin" = some "*")
        ∧ ((handleGated req env cache fS fA).1.status = 500 →
            tokenTruthy env.GENIUS_ACCESS_TOKEN = true →
            getHeader (handleGated req env cache fS fA).1
              "Access-Control-Allow-Origin" = some "*"))
    ∧ (∀ (req : Request) (env : Env) (fS fA : String → String → Except String String),
        getHeader (handleUngated req env fS fA) "Access-Control-Allow-Origin" = some "*") :=
  ⟨gated_error_cors, ungated_cors⟩

/-- Claim C9, witness: the gated 401 response of a request without the
secret carries the CORS header, and so does the ungated 404 response. -/
theorem claim9_witness :
    getHeader (handleGated ⟨"GET", "/song/123", []⟩
        ⟨some "hunter2", some (fun _ => true), some "tok"⟩
        (fun _ => none) (fun _ _ => .ok "data") (fun _ _ => .ok "data")).1
      "Access-Control-Allow-Origin" = some "*"
    ∧ getHeader (handleUngated ⟨"GET", "/unknown", []⟩
        ⟨some "hunter2", some (fun _ => true), some "tok"⟩
        (fun _ _ => .ok "data") (fun _ _ => .ok "data"))
      "Access-Control-Allow-Origin" = some "*" :=
  ⟨(claim9_error_cors.1 ⟨"GET", "/song/123", []⟩
      ⟨some "hunter2", some (fun _ => true), some "tok"⟩
      (fun _ => none) (fun _ _ => .ok "data") (fun _ _ => .ok "data")
      (fun h => Option.noConfusion h)).1 (Or.inl rfl),
   claim9_error_cors.2 ⟨"GET", "/unknown", []⟩
      ⟨some "hunter2", some (fun _ => true), some "tok"⟩
      (fun _ _ => .ok "data") (fun _ _ => .ok "data")⟩

/-- Claim C8: whenever the `X-Proxy-Secret` header does not match the
configured secret under JS strict equality — including an absent header or
an unconfigured secret — the gated handler returns the 401 response with
body `{"error":"Unauthorized"}` and JSON/CORS headers, regardless of path
and method, and its collaborator trace is empty: no rate-limit call, no
cache access and no upstream call is made. -/
theorem claim8_auth_gate :
    ∀ (req : Request) (env : Env) (cache : Request → Option Response)
      (fS fA : String → String → Except String String),
      authOk req env = false →
      handleGated req env cache fS fA =
        (⟨401, jsonError "Unauthorized", [contentTypeJson, corsAllowOrigin]⟩, []) := by
  intro req env cache fS fA h
  unfold handleGated
  rw [h]
  rfl

/-- Claim C8, witness: a request without the secret header against a
configured secret is rejected with the exact 401 response and an empty
collaborator trace. -/
theorem claim8_witness :
    authOk ⟨"GET", "/song/123", []⟩ ⟨some "hunter2", some (fun _ => true), some "tok"⟩ = false
    ∧ handleGated ⟨"GET", "/song/123", []⟩
        ⟨some "hunter2", some (fun _ => true), some "tok"⟩
        (fun _ => none) (fun _ _ => .ok "data") (fun _ _ => .ok "data") =
      (⟨401, jsonError "Unauthorized", [contentTypeJson, corsAllowOrigin]⟩, []) :=
  ⟨rfl, claim8_auth_gate ⟨"GET", "/song/123", []⟩
    ⟨some "hunter2", some (fun _ => true), some "tok"⟩
    (fun _ => none) (fun _ _ => .ok "data") (fun _ _ => .ok "data") rfl⟩
